import Mathlib

/-!
# Nymia desktop front-end: shallow embedding and verification

This file embeds the decision logic of the sampled Svelte components of the
`nymia-desktop` repository and proves properties of the embedded definitions.

Modelling conventions:
* JavaScript strings are modelled as `String` (or `List Char` where character
  counting matters); `number` values holding currency amounts are modelled as `ℚ`.
* `window.setInterval` is modelled by a fresh-handle allocator (`nextHandle`);
  the set of interval timers that are currently scheduled is tracked in a list
  of handles (`livePolling`, `liveTimer`).  `clearInterval h` removes `h` from
  the list; clearing a handle that is not scheduled is a no-op, exactly as in
  the browser API.
* `await invoke(...)` results are passed to the embedded functions as explicit
  `Except String α` arguments: `.ok` models a resolved promise, `.error msg`
  models a rejection whose `err.message` is `msg`.
* Svelte `dispatch` calls are modelled by appending the dispatched event to an
  `events` list in the state.
-/

namespace Nymia

namespace Conv

/-- Events dispatched by `CurrencyConversionStep`
(`dispatch('completed', { txid, actualAmountReceived })`). -/
inductive ConvEvent where
  | completed (txid : String) (actualAmountReceived : ℚ)
  deriving DecidableEq, Repr

/-- The mutable component state of `CurrencyConversionStep`
(`VerusIdRegistrationModal.svelte`, "Conversion execution state" and
"Timing tracking" blocks), together with the bookkeeping needed to model
`window.setInterval` / `clearInterval` and `dispatch`.

`walletReady` abstracts the wallet-data conjuncts of `internalCanProceed`
(`!!selectedSourceAddress && !!selectedDestinationAddress && !!conversionRate
&& hasValidSourceAddress && amountWithBuffer > 0`), which do not touch the
timer logic. -/
structure ConvState where
  converting : Bool
  conversionStarted : Bool
  conversionTxid : Option String
  conversionError : Option String
  pollingInterval : Option Nat
  baselineBalance : ℚ
  conversionCompleted : Bool
  actualAmountReceived : ℚ
  conversionStartTime : Nat
  elapsedSeconds : Nat
  timerInterval : Option Nat
  walletReady : Bool
  nextHandle : Nat
  livePolling : List Nat
  liveTimer : List Nat
  events : List ConvEvent
  deriving DecidableEq, Repr

/-- Component state right after `<script>` initialisation. -/
def initialConvState : ConvState where
  converting := false
  conversionStarted := false
  conversionTxid := none
  conversionError := none
  pollingInterval := none
  baselineBalance := 0
  conversionCompleted := false
  actualAmountReceived := 0
  conversionStartTime := 0
  elapsedSeconds := 0
  timerInterval := none
  walletReady := false
  nextHandle := 0
  livePolling := []
  liveTimer := []
  events := []

/-- Model of `clearInterval h` on the polling-interval list. -/
def clearPolling (h : Nat) (s : ConvState) : ConvState :=
  { s with livePolling := s.livePolling.filter (fun x => x ≠ h) }

/-- Model of `clearInterval h` on the 1-second-timer list. -/
def clearTimer (h : Nat) (s : ConvState) : ConvState :=
  { s with liveTimer := s.liveTimer.filter (fun x => x ≠ h) }

/-- Function `startTimer()` of `CurrencyConversionStep`: records the start time, resets
`elapsedSeconds`, clears a previous timer interval if there is one, and
schedules a fresh one. -/
def startTimer (now : Nat) (s : ConvState) : ConvState :=
  let s := { s with conversionStartTime := now, elapsedSeconds := 0 }
  let s := match s.timerInterval with
    | some h => clearTimer h s
    | none => s
  { s with timerInterval := some s.nextHandle
           liveTimer := s.nextHandle :: s.liveTimer
           nextHandle := s.nextHandle + 1 }

/-- Function `stopTimer()` of `CurrencyConversionStep`: clears the timer interval if
there is one and nulls the handle variable. -/
def stopTimer (s : ConvState) : ConvState :=
  match s.timerInterval with
  | some h => { clearTimer h s with timerInterval := none }
  | none => s

/-- Function `startPolling()`: schedules the 10-second polling interval.  Note that the
source assigns `pollingInterval = window.setInterval(...)` without clearing a
previously stored handle. -/
def startPolling (s : ConvState) : ConvState :=
  { s with pollingInterval := some s.nextHandle
           livePolling := s.nextHandle :: s.livePolling
           nextHandle := s.nextHandle + 1 }

/-- Function `completeConversion(newFundsReceived)`: clears the polling interval and the
timer, flips the status flags and dispatches the `completed` event. -/
def completeConversion (newFundsReceived : ℚ) (s : ConvState) : ConvState :=
  let s := match s.pollingInterval with
    | some h => { clearPolling h s with pollingInterval := none }
    | none => s
  let s := stopTimer s
  { s with converting := false
           conversionStarted := false
           conversionCompleted := true
           actualAmountReceived := newFundsReceived
           events := s.events ++
             [ConvEvent.completed (s.conversionTxid.getD "") newFundsReceived] }

/-- The continuation of one polling tick of `startPolling`, entered when its
`get_address_currency_balance` call resolves with `currentBalance`: if new
funds arrived (balance strictly above the recorded baseline) the tick invokes
`completeConversion`; otherwise polling just continues (there is no timeout
branch in the source). -/
def pollTickResolve (currentBalance : ℚ) (s : ConvState) : ConvState :=
  if s.baselineBalance < currentBalance then
    completeConversion (currentBalance - s.baselineBalance) s
  else
    s

/-- The continuation of one polling tick whose backend call rejected: the
`catch` block is empty, so polling continues with no state change. -/
def pollTickError (s : ConvState) : ConvState := s

/-- The `!converting && !conversionStarted` part of `internalCanProceed`,
together with the wallet-data conjuncts abstracted as `walletReady`. -/
def internalCanProceed (s : ConvState) : Bool :=
  !s.converting && !s.conversionStarted && s.walletReady

/-- Function `startConversion()`.  The two `await invoke(...)` results are passed in as
`baselineResult` (`get_address_currency_balance`) and `sendResult`
(`send_currency_conversion`); `now` is `Date.now()` at the time `startTimer`
runs.  A rejection of either call lands in the `catch` block, which stores the
prefixed message and resets `converting`. -/
def startConversion (now : Nat) (baselineResult : Except String ℚ)
    (sendResult : Except String String) (s : ConvState) : ConvState :=
  if !internalCanProceed s then s
  else
    let s := { s with converting := true, conversionError := none }
    match baselineResult with
    | .error e =>
        { s with conversionError := some ("Failed to start conversion: " ++ e)
                 converting := false }
    | .ok b =>
        let s := { s with baselineBalance := b }
        match sendResult with
        | .error e =>
            { s with conversionError := some ("Failed to start conversion: " ++ e)
                     converting := false }
        | .ok txid =>
            let s := { s with conversionTxid := some txid, conversionStarted := true }
            startPolling (startTimer now s)

/-- Function `retryConversion()`: resets the status fields, clears the polling interval
and the timer.  (The subsequent `initialize()` only refetches wallet data and
starts no timers.) -/
def retryConversion (s : ConvState) : ConvState :=
  let s := { s with conversionError := none
                    conversionTxid := none
                    conversionStarted := false
                    converting := false
                    conversionCompleted := false
                    actualAmountReceived := 0 }
  let s := match s.pollingInterval with
    | some h => { clearPolling h s with pollingInterval := none }
    | none => s
  stopTimer s

/-- The `onDestroy` teardown: clears both intervals if their handle variables
are set.  (The source does not null the handle variables here.) -/
def onDestroy (s : ConvState) : ConvState :=
  let s := match s.pollingInterval with
    | some h => clearPolling h s
    | none => s
  match s.timerInterval with
  | some h => clearTimer h s
  | none => s

/-- One event-loop step of the conversion component: any of its operations, a
polling-tick resolution (with an arbitrary balance answer), or a change of the
wallet-data flag. -/
inductive ConvStep : ConvState → ConvState → Prop where
  | startConv (now : Nat) (br : Except String ℚ) (sr : Except String String)
      (s : ConvState) : ConvStep s (startConversion now br sr s)
  | tickResolve (b : ℚ) (s : ConvState) : ConvStep s (pollTickResolve b s)
  | tickError (s : ConvState) : ConvStep s (pollTickError s)
  | retry (s : ConvState) : ConvStep s (retryConversion s)
  | destroy (s : ConvState) : ConvStep s (onDestroy s)
  | stopT (s : ConvState) : ConvStep s (stopTimer s)
  | setWallet (b : Bool) (s : ConvState) : ConvStep s { s with walletReady := b }

/-- States of the conversion component reachable from initialisation. -/
inductive ConvReach : ConvState → Prop where
  | init : ConvReach initialConvState
  | step {s t : ConvState} : ConvReach s → ConvStep s t → ConvReach t

/-- Inductive invariant of the conversion component: each of the two handle
variables owns at most the one scheduled interval it stores, the polling
interval only exists while a conversion is started, and all stored handles
were allocated below `nextHandle`. -/
def ConvInv (s : ConvState) : Prop :=
  (s.pollingInterval = none → s.livePolling = []) ∧
  (∀ h, s.pollingInterval = some h →
    (s.livePolling = [] ∨ s.livePolling = [h]) ∧ h < s.nextHandle) ∧
  (s.timerInterval = none → s.liveTimer = []) ∧
  (∀ h, s.timerInterval = some h →
    (s.liveTimer = [] ∨ s.liveTimer = [h]) ∧ h < s.nextHandle) ∧
  (s.conversionStarted = false → s.livePolling = [])

end Conv

namespace Reg

/-- Backend commands invoked by `RegisterIdentityStep.startFlow`, with the
arguments that matter for the flow's control and polling behaviour. -/
inductive Cmd where
  | getNewAddress
  | registerNameCommitment (name controlAddress referralIdentity parentNamespace : String)
  | waitForBlockIncrease (blocks intervalSecs timeoutSecs : Nat)
  | getNewPrivateAddress
  | registerIdentity (identityName : String)
  | waitForIdentityReady (identityName : String) (intervalSecs timeoutSecs : Nat)
  deriving DecidableEq, Repr

/-- Events dispatched by `RegisterIdentityStep`. -/
inductive RegEvent where
  | completed (controlAddress privateAddress : String)
  | errorEvent (message : String)
  deriving DecidableEq, Repr

/-- The `phase` variable of `RegisterIdentityStep`. -/
inductive Phase where
  | idle | committing | waitingCommit | finalizing | waitingFinalize | done | error
  deriving DecidableEq, Repr

/-- Mutable component state of `RegisterIdentityStep`, with the same
`setInterval`/`clearInterval` and `dispatch` bookkeeping as `ConvState`. -/
structure RegState where
  phase : Phase
  errorMsg : Option String
  controlAddress : String
  privateAddress : String
  commitTxid : String
  finalizeTxid : String
  phaseStartTime : Nat
  elapsedSeconds : Nat
  timerInterval : Option Nat
  nextHandle : Nat
  liveTimer : List Nat
  invoked : List Cmd
  events : List RegEvent
  deriving DecidableEq, Repr

/-- Component state right after `<script>` initialisation. -/
def initialRegState : RegState where
  phase := .idle
  errorMsg := none
  controlAddress := ""
  privateAddress := ""
  commitTxid := ""
  finalizeTxid := ""
  phaseStartTime := 0
  elapsedSeconds := 0
  timerInterval := none
  nextHandle := 0
  liveTimer := []
  invoked := []
  events := []

/-- Constant `POLL_INTERVAL_SECS = 10`. -/
def POLL_INTERVAL_SECS : Nat := 10

/-- Constant `TIMEOUT_SECS = 30 * 60` seconds. -/
def TIMEOUT_SECS : Nat := 30 * 60

/-- Function `startTimer()` of `RegisterIdentityStep`: resets `phaseStartTime` and
`elapsedSeconds`, clears any previous timer interval, schedules a fresh one. -/
def startTimer (now : Nat) (s : RegState) : RegState :=
  let s := { s with phaseStartTime := now, elapsedSeconds := 0 }
  let s := match s.timerInterval with
    | some h => { s with liveTimer := s.liveTimer.filter (fun x => x ≠ h) }
    | none => s
  { s with timerInterval := some s.nextHandle
           liveTimer := s.nextHandle :: s.liveTimer
           nextHandle := s.nextHandle + 1 }

/-- Function `stopTimer()` of `RegisterIdentityStep`. -/
def stopTimer (s : RegState) : RegState :=
  match s.timerInterval with
  | some h => { s with liveTimer := s.liveTimer.filter (fun x => x ≠ h)
                       timerInterval := none }
  | none => s

/-- The `catch` block of `startFlow`: `stopTimer(); errorMsg = e?.message ||
String(e); phase = 'error'; dispatch('error', { message: errorMsg || 'Unknown
error' })`.  The raised message is `msg`; the empty string is falsy in the
source, hence the `"Unknown error"` fallback in the dispatched event. -/
def fail (msg : String) (s : RegState) : RegState :=
  let s := stopTimer s
  { s with errorMsg := some msg
           phase := .error
           events := s.events ++
             [RegEvent.errorEvent (if msg = "" then "Unknown error" else msg)] }

/-- The sequence of backend promise results consumed by one `startFlow` run,
in program order.  `.error m` models a rejection with `err.message = m`. -/
structure FlowInputs where
  getNewAddress : Except String String
  registerNameCommitment : Except String String
  waitCommit : Except String Bool
  getNewPrivateAddress : Except String String
  registerIdentity : Except String String
  waitFinalize : Except String Bool
  waitIdentityReady : Except String Bool
  deriving Repr

/-- Derived `fullId` / `identityNameForFinalize` of `RegisterIdentityStep`. -/
def identityNameForFinalize (isRoot : Bool) (name nsName : String) : String :=
  if isRoot then name else name ++ "." ++ nsName

/-- Reactive statement `` $: fullId = isRoot ? `${name}@` : `${name}.${selectedNamespace.name}@` ``. -/
def fullId (isRoot : Bool) (name nsName : String) : String :=
  identityNameForFinalize isRoot name nsName ++ "@"

/-- Function `startFlow()` of `RegisterIdentityStep`: the whole two-phase
commit/finalize flow, with every `await invoke(...)` answered by the
corresponding field of `inp` and every rejection routed to the `catch`
block (`fail`). -/
def startFlow (now : Nat) (isRoot : Bool) (name nsName referralCode : String)
    (inp : FlowInputs) (s : RegState) : RegState :=
  let s := { s with errorMsg := none, phase := .committing }
  let s := { s with invoked := s.invoked ++ [Cmd.getNewAddress] }
  match inp.getNewAddress with
  | .error e => fail e s
  | .ok ctrl =>
  let s := { s with controlAddress := ctrl }
  let parentNamespace := if isRoot then "" else nsName
  let referral := referralCode.trim
  let s := { s with invoked := s.invoked ++
    [Cmd.registerNameCommitment name ctrl referral parentNamespace] }
  match inp.registerNameCommitment with
  | .error e => fail e s
  | .ok ctxid =>
  let s := { s with commitTxid := ctxid, phase := .waitingCommit }
  let s := startTimer now s
  let s := { s with invoked := s.invoked ++
    [Cmd.waitForBlockIncrease 1 POLL_INTERVAL_SECS TIMEOUT_SECS] }
  match inp.waitCommit with
  | .error e => fail e s
  | .ok commitOk =>
  let s := stopTimer s
  if commitOk = false then fail "Commit transaction not confirmed in time." s
  else
  let s := { s with phase := .finalizing }
  let s := { s with invoked := s.invoked ++ [Cmd.getNewPrivateAddress] }
  match inp.getNewPrivateAddress with
  | .error e => fail e s
  | .ok priv =>
  let s := { s with privateAddress := priv }
  let s := { s with invoked := s.invoked ++
    [Cmd.registerIdentity (identityNameForFinalize isRoot name nsName)] }
  match inp.registerIdentity with
  | .error e => fail e s
  | .ok ftxid =>
  let s := { s with finalizeTxid := ftxid, phase := .waitingFinalize }
  let s := startTimer now s
  let s := { s with invoked := s.invoked ++
    [Cmd.waitForBlockIncrease 1 POLL_INTERVAL_SECS TIMEOUT_SECS] }
  match inp.waitFinalize with
  | .error e => fail e s
  | .ok finOk =>
  let s := stopTimer s
  if finOk = false then fail "Finalize transaction not confirmed in time." s
  else
  let s := { s with invoked := s.invoked ++
    [Cmd.waitForIdentityReady (fullId isRoot name nsName) POLL_INTERVAL_SECS TIMEOUT_SECS] }
  match inp.waitIdentityReady with
  | .error e => fail e s
  | .ok ready =>
  if ready = false then
    fail "Identity not available after registration - this may indicate a network issue." s
  else
  let s := { s with phase := .done }
  { s with events := s.events ++ [RegEvent.completed s.controlAddress s.privateAddress] }

/-- A backend command is a bounded wait: every polling command it denotes
carries `intervalSecs = 10` and `timeoutSecs = 1800` (30 minutes);
non-polling commands satisfy this vacuously. -/
def boundedWait : Cmd → Prop
  | .waitForBlockIncrease _ i t => i = 10 ∧ t = 1800
  | .waitForIdentityReady _ i t => i = 10 ∧ t = 1800
  | _ => True

/-- The cleanup returned from `onMount` of `RegisterIdentityStep`:
`if (timerInterval) clearInterval(timerInterval)`.  (The handle variable is
not nulled here.) -/
def unmountCleanup (s : RegState) : RegState :=
  match s.timerInterval with
  | some h => { s with liveTimer := s.liveTimer.filter (fun x => x ≠ h) }
  | none => s

/-- One event-loop step of the registration component: a whole `startFlow`
run (with arbitrary backend answers), a bare `startTimer`/`stopTimer`, or the
unmount cleanup. -/
inductive RegStep : RegState → RegState → Prop where
  | flow (now : Nat) (isRoot : Bool) (name nsName ref : String)
      (inp : FlowInputs) (s : RegState) :
      RegStep s (startFlow now isRoot name nsName ref inp s)
  | startT (now : Nat) (s : RegState) : RegStep s (startTimer now s)
  | stopT (s : RegState) : RegStep s (stopTimer s)
  | unmount (s : RegState) : RegStep s (unmountCleanup s)

/-- States of the registration component reachable from initialisation. -/
inductive RegReach : RegState → Prop where
  | init : RegReach initialRegState
  | step {s t : RegState} : RegReach s → RegStep s t → RegReach t

/-- Inductive invariant of the registration component: the timer-handle
variable owns at most the one scheduled interval it stores, and stored
handles were allocated below `nextHandle`. -/
def RegInv (s : RegState) : Prop :=
  (s.timerInterval = none → s.liveTimer = []) ∧
  (∀ h, s.timerInterval = some h →
    (s.liveTimer = [] ∨ s.liveTimer = [h]) ∧ h < s.nextHandle)

end Reg

namespace SpecPoll

/-- Outcome of a bounded polling run: either the readiness predicate held at
some tick, or the timeout fired.  `elapsed` is the wall-clock time at the
deciding tick, `calls` the number of readiness-predicate invocations made
(ticks are numbered from 1). -/
inductive PollOutcome where
  | succeeded (elapsed calls : Nat)
  | timedOut (elapsed calls : Nat)
  | fuelOut
  deriving DecidableEq, Repr

/-- Modelled from the spec: the bounded polling loop of the backend commands
`wait_for_block_increase` and `wait_for_identity_ready` is implemented in the
application's backend process, whose sources are not part of the sampled
repository (only their call sites in `RegisterIdentityStep.startFlow` are).
Following the spec's tracker description: a poll tick fires every `interval`
(ticks at `interval, 2*interval, ...`); each tick invokes the readiness
predicate; on a true result the run succeeds; otherwise, if the elapsed time
exceeds `timeout`, the run fails with a timeout.  `fuel` bounds the recursion
and is irrelevant whenever it is at least the number of ticks needed. -/
def pollLoop (pred : Nat → Bool) (interval timeout : Nat) :
    Nat → Nat → PollOutcome
  | _, 0 => .fuelOut
  | tick, fuel + 1 =>
    let k := tick + 1
    if pred k then .succeeded (k * interval) k
    else if timeout < k * interval then .timedOut (k * interval) k
    else pollLoop pred interval timeout k fuel

end SpecPoll

namespace NameInput

/-- The blocked characters of `handleNameInput` (`IdentityInfoStep`):
the regular expression character class `[/:*?"<>|@.)]`. -/
def blockedChars : List Char :=
  ['/', ':', '*', '?', '"', '<', '>', '|', '@', '.', ')']

/-- Function `handleNameInput`: `inputValue.replace(/[/:*?"<>|@.)]/g, '')` — every
occurrence of a blocked character is removed, everything else is kept in
order.  Strings are modelled as `List Char`. -/
def handleNameInput (inputValue : List Char) : List Char :=
  inputValue.filter (fun c => !blockedChars.contains c)

/-- Function `isRootNamespace` of `IdentityInfoStep`: false when no root currency is
loaded, otherwise a match on the currency id or a name of `vrsc`/`vrsctest`
(case-insensitive). -/
def isRootNamespace (rootCurrencyId : Option (List Char))
    (currencyId nsName : List Char) : Bool :=
  match rootCurrencyId with
  | none => false
  | some rid =>
    currencyId = rid ||
      (nsName.map Char.toLower = "vrsc".toList ||
       nsName.map Char.toLower = "vrsctest".toList)

/-- Reactive statement `` $: previewId = name && selectedNamespace ? (isRootNamespace(...) ?
`${name}@` : `${name}.${selectedNamespace.name}@`) : '' ``, for a non-null
selected namespace with name `nsName` and currency id `currencyId`. -/
def previewId (rootCurrencyId : Option (List Char))
    (currencyId nsName name : List Char) : List Char :=
  if name = [] then []
  else if isRootNamespace rootCurrencyId currencyId nsName then name ++ ['@']
  else name ++ ['.'] ++ nsName ++ ['@']

end NameInput

namespace Funding

/-- Constant `UTXO_AMOUNT = 0.0001`. -/
def UTXO_AMOUNT : ℚ := 1 / 10000

/-- Constant `UTXO_COUNT = 1`. -/
def UTXO_COUNT : ℚ := 1

/-- Constant `TOTAL_FUNDING_AMOUNT = UTXO_AMOUNT * UTXO_COUNT`. -/
def TOTAL_FUNDING_AMOUNT : ℚ := UTXO_AMOUNT * UTXO_COUNT

/-- Reactive `$: estimatedFees = 0.0001` (fixed fee estimate). -/
def estimatedFees : ℚ := 1 / 10000

/-- Reactive `$: totalRequired = TOTAL_FUNDING_AMOUNT + estimatedFees`. -/
def totalRequired : ℚ := TOTAL_FUNDING_AMOUNT + estimatedFees

/-- Mutable state of `FundingModal` relevant to `handleAutoFunding`, with the
list of issued backend commands and the dispatched close event recorded. -/
structure FundingState where
  walletBalance : Option ℚ
  isFunding : Bool
  fundingError : Option String
  privateAddress : String
  invoked : List String
  closedSuccess : Bool
  deriving DecidableEq, Repr

/-- Reactive `$: canAffordFunding = walletBalance !== null && walletBalance >=
totalRequired`. -/
def canAffordFunding (s : FundingState) : Bool :=
  match s.walletBalance with
  | none => false
  | some b => totalRequired ≤ b

/-- Function `handleAutoFunding()`.  The `await invoke('fund_private_address_for_messages_cmd',
...)` result is passed in as `result`; a rejection is modelled as `.error e`
with `e` the string payload.  The guard `if (!canAffordFunding ||
!privateAddress || isFunding) return;` exits before any mutation or backend
call (the empty string is the only falsy address value). -/
def handleAutoFunding (result : Except String String) (s : FundingState) :
    FundingState :=
  if !canAffordFunding s || s.privateAddress == "" || s.isFunding then s
  else
    let s := { s with isFunding := true, fundingError := none }
    let s := { s with invoked := s.invoked ++ ["fund_private_address_for_messages_cmd"] }
    match result with
    | .ok _txid => { s with closedSuccess := true }
    | .error e => { s with fundingError := some e, isFunding := false }

end Funding

namespace Pricing

/-- Function `calculateReferralDiscount(referralLevels)`: `1 / (referralLevels + 2)`
(identical in `IdentityInfoStep` and `VerusIdRegistrationModal`). -/
def calculateReferralDiscount (referralLevels : ℕ) : ℚ :=
  1 / (referralLevels + 2)

/-- Function `calculateDiscountedPrice(originalPrice, referralLevels)`:
`originalPrice * (1 - calculateReferralDiscount(referralLevels))`. -/
def calculateDiscountedPrice (originalPrice : ℚ) (referralLevels : ℕ) : ℚ :=
  originalPrice * (1 - calculateReferralDiscount referralLevels)

end Pricing

/-- A conversion-component state whose 1-second timer (handle `0`) is
scheduled, as after a bare `startTimer()`. -/
def sampleTimerState : Conv.ConvState :=
  { Conv.initialConvState with timerInterval := some 0, liveTimer := [0], nextHandle := 1 }

/-- The conversion-component state right after a successful
`startConversion()` from a ready wallet: baseline balance `0`, transaction id
`"txid1"`, timer handle `0` and polling handle `1` scheduled. -/
def sampleStartedState : Conv.ConvState :=
  Conv.startConversion 100 (.ok 0) (.ok "txid1")
    { Conv.initialConvState with walletReady := true }

end Nymia

open Nymia

/-- Removing a handle from a live-interval list twice is the same as removing
it once (`clearInterval` on an already-cleared handle is a no-op). -/
theorem filter_ne_filter_ne (h : Nat) (l : List Nat) :
    (l.filter (fun x => x ≠ h)).filter (fun x => x ≠ h) = l.filter (fun x => x ≠ h) := by
  induction l with
  | nil => rfl
  | cons a t ih => by_cases ha : a = h <;> simp [ha, ih]

/-- A handle is never a member of the list it was just filtered out of. -/
theorem not_mem_filter_ne (h : Nat) (l : List Nat) :
    h ∉ l.filter (fun x => x ≠ h) := by
  intro hm
  have := List.of_mem_filter hm
  simp at this

/-- C10: the function `calculateReferralDiscount` satisfies `1/(n+2)` and
`calculateDiscountedPrice p n = p*(1 - 1/(n+2)) = p*(n+1)/(n+2)`; for
`n = 0..5` the discount factor is `1/2, 1/3, 1/4, 1/5, 1/6, 1/7`, and for
`p > 0` the discounted price is strictly positive and strictly below `p`. -/
theorem C10_referral_discount_formula (n : ℕ) (p : ℚ) :
    Pricing.calculateReferralDiscount n = 1 / (n + 2) ∧
    Pricing.calculateDiscountedPrice p n = p * (1 - 1 / (n + 2)) ∧
    Pricing.calculateDiscountedPrice p n = p * (n + 1) / (n + 2) ∧
    (0 < p → 0 < Pricing.calculateDiscountedPrice p n ∧
      Pricing.calculateDiscountedPrice p n < p) ∧
    Pricing.calculateReferralDiscount 0 = 1 / 2 ∧
    Pricing.calculateReferralDiscount 1 = 1 / 3 ∧
    Pricing.calculateReferralDiscount 2 = 1 / 4 ∧
    Pricing.calculateReferralDiscount 3 = 1 / 5 ∧
    Pricing.calculateReferralDiscount 4 = 1 / 6 ∧
    Pricing.calculateReferralDiscount 5 = 1 / 7 := by
  have hn2 : (0 : ℚ) < (n : ℚ) + 2 := by positivity
  have hstep : (1 : ℚ) - 1 / ((n : ℚ) + 2) = ((n : ℚ) + 1) / ((n : ℚ) + 2) := by
    rw [eq_div_iff (ne_of_gt hn2)]
    field_simp
    ring
  have hform : Pricing.calculateDiscountedPrice p n = p * (n + 1) / (n + 2) := by
    unfold Pricing.calculateDiscountedPrice Pricing.calculateReferralDiscount
    rw [hstep, mul_div_assoc]
  refine ⟨rfl, rfl, hform, ?_, by norm_num [Pricing.calculateReferralDiscount],
    by norm_num [Pricing.calculateReferralDiscount],
    by norm_num [Pricing.calculateReferralDiscount],
    by norm_num [Pricing.calculateReferralDiscount],
    by norm_num [Pricing.calculateReferralDiscount],
    by norm_num [Pricing.calculateReferralDiscount]⟩
  intro hp
  constructor
  · rw [hform]
    positivity
  · rw [hform, div_lt_iff₀ hn2]
    nlinarith

/-- C10 witness: the theorem instantiated at `n = 3`, `p = 7`. -/
theorem C10_referral_discount_formula_witness :
    0 < (7 : ℚ) ∧ 0 < Pricing.calculateDiscountedPrice 7 3 ∧
      Pricing.calculateDiscountedPrice 7 3 < 7 :=
  ⟨by norm_num, (C10_referral_discount_formula 3 7).2.2.2.1 (by norm_num)⟩

/-- C9: the function `handleAutoFunding` calls the backend funding command exactly when the
checked balance covers `totalRequired = 0.0002` (`0.0001` UTXO amount plus
`0.0001` fixed fee), the private address is non-empty, and no funding call is
in flight; when any precondition fails it returns with no backend invocation
and no state change. -/
theorem C9_auto_funding_guard (s : Funding.FundingState) (r : Except String String) :
    Funding.totalRequired = 2 / 10000 ∧
    (Funding.canAffordFunding s = true ↔
      ∃ b, s.walletBalance = some b ∧ Funding.totalRequired ≤ b) ∧
    ((Funding.handleAutoFunding r s).invoked ≠ s.invoked ↔
      Funding.canAffordFunding s = true ∧ s.privateAddress ≠ "" ∧ s.isFunding = false) ∧
    (¬(Funding.canAffordFunding s = true ∧ s.privateAddress ≠ "" ∧ s.isFunding = false) →
      Funding.handleAutoFunding r s = s) := by
  have htot : Funding.totalRequired = 2 / 10000 := by
    norm_num [Funding.totalRequired, Funding.TOTAL_FUNDING_AMOUNT,
      Funding.UTXO_AMOUNT, Funding.UTXO_COUNT, Funding.estimatedFees]
  have hguard : (!Funding.canAffordFunding s || s.privateAddress == "" || s.isFunding) = false ↔
      Funding.canAffordFunding s = true ∧ s.privateAddress ≠ "" ∧ s.isFunding = false := by
    simp [Bool.or_eq_false_iff]
    tauto
  refine ⟨htot, ?_, ?_, ?_⟩
  · cases hw : s.walletBalance with
    | none => simp [Funding.canAffordFunding, hw]
    | some b =>
      simp only [Funding.canAffordFunding, hw]
      constructor
      · intro hle
        exact ⟨b, rfl, by simpa using hle⟩
      · rintro ⟨b2, hb2, hle⟩
        cases hb2
        simpa using hle
  · rcases Bool.eq_false_or_eq_true
        (!Funding.canAffordFunding s || s.privateAddress == "" || s.isFunding) with ht | hf
    · have hs : Funding.handleAutoFunding r s = s := by
        simp [Funding.handleAutoFunding, ht]
      rw [hs]
      constructor
      · intro hne
        exact absurd rfl hne
      · intro hconj
        exact absurd ht (by simp [hguard.mpr hconj])
    · have hconj := hguard.mp hf
      constructor
      · intro _
        exact hconj
      · intro _
        cases r <;>
          · simp only [Funding.handleAutoFunding, hf, Bool.false_eq_true, if_false]
            intro hEq
            have := congrArg List.length hEq
            simp at this
  · intro hnot
    rcases Bool.eq_false_or_eq_true
        (!Funding.canAffordFunding s || s.privateAddress == "" || s.isFunding) with ht | hf
    · simp [Funding.handleAutoFunding, ht]
    · exact absurd (hguard.mp hf) hnot

/-- C9 witness: a wallet with balance `0.0003`, a non-empty address and no
call in flight does invoke the command; the broke state is left untouched. -/
theorem C9_auto_funding_guard_witness :
    (Funding.handleAutoFunding (.ok "tx")
      { walletBalance := some (3 / 10000), isFunding := false, fundingError := none,
        privateAddress := "zs1abc", invoked := [], closedSuccess := false }).invoked ≠
      ([] : List String) ∧
    Funding.handleAutoFunding (.ok "tx")
      { walletBalance := some (1 / 10000), isFunding := false, fundingError := none,
        privateAddress := "zs1abc", invoked := [], closedSuccess := false } =
      { walletBalance := some (1 / 10000), isFunding := false, fundingError := none,
        privateAddress := "zs1abc", invoked := [], closedSuccess := false } := by
  constructor
  · exact (C9_auto_funding_guard _ (.ok "tx")).2.2.1.mpr
      ⟨by norm_num [Funding.canAffordFunding, Funding.totalRequired,
          Funding.TOTAL_FUNDING_AMOUNT, Funding.UTXO_AMOUNT, Funding.UTXO_COUNT,
          Funding.estimatedFees],
        by decide, rfl⟩
  · exact (C9_auto_funding_guard _ (.ok "tx")).2.2.2 (by
      intro hc
      have hb := hc.1
      norm_num [Funding.canAffordFunding, Funding.totalRequired,
        Funding.TOTAL_FUNDING_AMOUNT, Funding.UTXO_AMOUNT, Funding.UTXO_COUNT,
        Funding.estimatedFees] at hb)

/-- C6: the functions `stopTimer` (both components) and the `onDestroy` cleanup are
idempotent: they clear the active timer unconditionally, and a second
consecutive call is a no-op that leaves the state unchanged. -/
theorem C6_cancel_idempotent (sc : Conv.ConvState) (sr : Reg.RegState) :
    Conv.stopTimer (Conv.stopTimer sc) = Conv.stopTimer sc ∧
    (Conv.stopTimer sc).timerInterval = none ∧
    Conv.onDestroy (Conv.onDestroy sc) = Conv.onDestroy sc ∧
    Reg.stopTimer (Reg.stopTimer sr) = Reg.stopTimer sr ∧
    (Reg.stopTimer sr).timerInterval = none ∧
    (∀ h, sc.timerInterval = some h → h ∉ (Conv.stopTimer sc).liveTimer) ∧
    (∀ h, sr.timerInterval = some h → h ∉ (Reg.stopTimer sr).liveTimer) := by
  refine ⟨?_, ?_, ?_, ?_, ?_, ?_, ?_⟩
  · cases h : sc.timerInterval <;>
      simp [Conv.stopTimer, Conv.clearTimer, h]
  · cases h : sc.timerInterval <;> simp [Conv.stopTimer, Conv.clearTimer, h]
  · cases hp : sc.pollingInterval <;> cases ht : sc.timerInterval <;>
      simp [Conv.onDestroy, Conv.clearPolling, Conv.clearTimer, hp, ht,
        filter_ne_filter_ne]
  · cases h : sr.timerInterval <;> simp [Reg.stopTimer, h]
  · cases h : sr.timerInterval <;> simp [Reg.stopTimer, h]
  · intro h hh
    simp only [Conv.stopTimer, Conv.clearTimer, hh]
    exact not_mem_filter_ne h _
  · intro h hh
    simp only [Reg.stopTimer, hh]
    exact not_mem_filter_ne h _

/-- C6 witness: the theorem instantiated at a state whose timer handle `0` is
scheduled; after `stopTimer` the handle is cleared. -/
theorem C6_cancel_idempotent_witness :
    Nymia.sampleTimerState.timerInterval = some 0 ∧
    0 ∉ (Conv.stopTimer Nymia.sampleTimerState).liveTimer :=
  ⟨rfl, (C6_cancel_idempotent Nymia.sampleTimerState Reg.initialRegState).2.2.2.2.2.1 0 rfl⟩

/-- C8: the function `handleNameInput` removes every occurrence of each blocked character
`/ : * ? " < > | @ . )`, so the derived preview identifier (`name@` or
`name.namespace@`) contains exactly one `@` (for a namespace name free of
`@`) and the name portion contributes no `.` separator. -/
theorem C8_name_filter_preview (input nsName currencyId : List Char)
    (rootCurrencyId : Option (List Char)) :
    (∀ c ∈ NameInput.handleNameInput input, c ∉ NameInput.blockedChars) ∧
    (NameInput.handleNameInput input ≠ [] → '@' ∉ nsName →
      (NameInput.previewId rootCurrencyId currencyId nsName
        (NameInput.handleNameInput input)).count '@' = 1) ∧
    (NameInput.handleNameInput input ≠ [] →
      (NameInput.previewId rootCurrencyId currencyId nsName
        (NameInput.handleNameInput input)).count '.' =
        if NameInput.isRootNamespace rootCurrencyId currencyId nsName then 0
        else 1 + nsName.count '.') := by
  have hmem : ∀ c ∈ NameInput.handleNameInput input, c ∉ NameInput.blockedChars := by
    intro c hc
    have h2 := List.of_mem_filter hc
    simpa using h2
  have hat : (NameInput.handleNameInput input).count '@' = 0 :=
    List.count_eq_zero.mpr (fun h => hmem '@' h (by decide))
  have hdot : (NameInput.handleNameInput input).count '.' = 0 :=
    List.count_eq_zero.mpr (fun h => hmem '.' h (by decide))
  refine ⟨hmem, ?_, ?_⟩
  · intro hne hns
    have hnsc : nsName.count '@' = 0 := List.count_eq_zero.mpr hns
    by_cases hroot : NameInput.isRootNamespace rootCurrencyId currencyId nsName
    · simp [NameInput.previewId, hne, hroot, List.count_append, hat]
    · simp [NameInput.previewId, hne, hroot, List.count_append, hat, hnsc]
  · intro hne
    by_cases hroot : NameInput.isRootNamespace rootCurrencyId currencyId nsName
    · simp [NameInput.previewId, hne, hroot, List.count_append, hdot]
    · simp [NameInput.previewId, hne, hroot, List.count_append, hdot]
      omega

/-- C8 witness: the input `my@na.me/x` filtered and previewed under the root
namespace `vrsc` yields a preview with exactly one `@`. -/
theorem C8_name_filter_preview_witness :
    NameInput.handleNameInput "my@na.me/x".toList ≠ [] ∧
    '@' ∉ "vrsc".toList ∧
    (NameInput.previewId (some "iRoot".toList) "iOther".toList "vrsc".toList
      (NameInput.handleNameInput "my@na.me/x".toList)).count '@' = 1 :=
  ⟨by decide, by decide,
    (C8_name_filter_preview "my@na.me/x".toList "vrsc".toList "iOther".toList
      (some "iRoot".toList)).2.1 (by decide) (by decide)⟩

/-- C1 counterexample: in a started conversion with baseline balance `0` and
two overlapping in-flight poll ticks that both observe balance `5`, the first
`completeConversion` dispatches one `completed` event and the second
invocation dispatches a second one — the events list has length 2, so a
second 'completed' event IS emitted. -/
theorem C1_counterexample :
    (Conv.pollTickResolve 5 Nymia.sampleStartedState).events.length = 1 ∧
    (Conv.pollTickResolve 5
      (Conv.pollTickResolve 5 Nymia.sampleStartedState)).events.length = 2 := by
  constructor <;> decide

/-- Effect of one `completeConversion` invocation: the completed flag is set,
the polling interval is cleared, and exactly one `completed` event is
appended. -/
theorem completeConversion_facts (t : Conv.ConvState) (q : ℚ) :
    (Conv.completeConversion q t).conversionCompleted = true ∧
    (Conv.completeConversion q t).pollingInterval = none ∧
    (Conv.completeConversion q t).events = t.events ++
      [Conv.ConvEvent.completed (t.conversionTxid.getD "") q] := by
  unfold Conv.completeConversion Conv.stopTimer
  cases hp : t.pollingInterval <;> cases ht : t.timerInterval <;>
    simp [Conv.clearPolling, Conv.clearTimer, hp, ht]

/-- C1 amended: a poll tick that observes the readiness condition transitions
the tracker to the completed state, clears the polling interval, and emits
exactly one `completed` event for that tick; but `completeConversion` itself
is not idempotent — every invocation appends exactly one `completed` event,
so a second invocation double-emits. -/
theorem C1_single_tick_emits_once (s : Conv.ConvState) (b : ℚ)
    (hb : s.baselineBalance < b) :
    (Conv.pollTickResolve b s).conversionCompleted = true ∧
    (Conv.pollTickResolve b s).pollingInterval = none ∧
    (Conv.pollTickResolve b s).events = s.events ++
      [Conv.ConvEvent.completed (s.conversionTxid.getD "") (b - s.baselineBalance)] ∧
    (∀ (t : Conv.ConvState) (q : ℚ),
      (Conv.completeConversion q t).events.length = t.events.length + 1) := by
  refine ⟨?_, ?_, ?_, ?_⟩
  · simp only [Conv.pollTickResolve, if_pos hb]
    exact (completeConversion_facts s _).1
  · simp only [Conv.pollTickResolve, if_pos hb]
    exact (completeConversion_facts s _).2.1
  · simp only [Conv.pollTickResolve, if_pos hb]
    exact (completeConversion_facts s _).2.2
  · intro t q
    rw [(completeConversion_facts t q).2.2]
    simp

/-- C1 witness: the amended theorem at the started sample state with an
observed balance of `5` above the baseline `0`. -/
theorem C1_single_tick_emits_once_witness :
    Nymia.sampleStartedState.baselineBalance < 5 ∧
    (Conv.pollTickResolve 5 Nymia.sampleStartedState).conversionCompleted = true := by
  have hb : Nymia.sampleStartedState.baselineBalance < 5 := by
    have h0 : Nymia.sampleStartedState.baselineBalance = 0 := rfl
    rw [h0]
    norm_num
  exact ⟨hb, (C1_single_tick_emits_once Nymia.sampleStartedState 5 hb).1⟩

/-- C2 counterexample: tear down a started conversion (`onDestroy`) while a
poll-predicate call is in flight; when that call resolves with balance `5`
above the baseline `0`, the tracker still mutates state to completed and
emits a `completed` event after cancellation — the result is not discarded. -/
theorem C2_counterexample :
    (Conv.onDestroy Nymia.sampleStartedState).events.length = 0 ∧
    (Conv.pollTickResolve 5
      (Conv.onDestroy Nymia.sampleStartedState)).conversionCompleted = true ∧
    (Conv.pollTickResolve 5
      (Conv.onDestroy Nymia.sampleStartedState)).events.length = 1 := by
  refine ⟨by decide, by decide, by decide⟩

/-- C2 amended: cancellation/teardown clears the scheduled intervals, so no
future poll tick can start, and teardown itself emits nothing; but there is no
stale-response guard — a poll-predicate call already in flight at teardown
time still applies its result when it resolves: with a balance above the
baseline it marks the conversion completed and emits a `completed` event. -/
theorem C2_stale_result_applied (s : Conv.ConvState) (b : ℚ)
    (hb : s.baselineBalance < b) :
    (∀ hp, s.pollingInterval = some hp → hp ∉ (Conv.onDestroy s).livePolling) ∧
    (∀ ht, s.timerInterval = some ht → ht ∉ (Conv.onDestroy s).liveTimer) ∧
    (Conv.onDestroy s).events = s.events ∧
    (Conv.pollTickResolve b (Conv.onDestroy s)).conversionCompleted = true ∧
    (Conv.pollTickResolve b (Conv.onDestroy s)).events = s.events ++
      [Conv.ConvEvent.completed (s.conversionTxid.getD "") (b - s.baselineBalance)] := by
  have hfields : (Conv.onDestroy s).baselineBalance = s.baselineBalance ∧
      (Conv.onDestroy s).conversionTxid = s.conversionTxid ∧
      (Conv.onDestroy s).events = s.events := by
    unfold Conv.onDestroy
    cases hp : s.pollingInterval <;> cases ht : s.timerInterval <;>
      simp [Conv.clearPolling, Conv.clearTimer, hp, ht]
  have hb2 : (Conv.onDestroy s).baselineBalance < b := by rw [hfields.1]; exact hb
  have happ : (Conv.pollTickResolve b (Conv.onDestroy s)).conversionCompleted = true ∧
      (Conv.pollTickResolve b (Conv.onDestroy s)).events = (Conv.onDestroy s).events ++
        [Conv.ConvEvent.completed ((Conv.onDestroy s).conversionTxid.getD "")
          (b - (Conv.onDestroy s).baselineBalance)] := by
    constructor
    · simp only [Conv.pollTickResolve, if_pos hb2]
      exact (completeConversion_facts _ _).1
    · simp only [Conv.pollTickResolve, if_pos hb2]
      exact (completeConversion_facts _ _).2.2
  refine ⟨?_, ?_, hfields.2.2, happ.1, ?_⟩
  · intro hp hhp
    unfold Conv.onDestroy
    rw [hhp]
    cases ht : s.timerInterval <;>
      simp [Conv.clearPolling, Conv.clearTimer, ht, List.mem_filter]
  · intro ht hht
    unfold Conv.onDestroy
    cases hp : s.pollingInterval <;>
      simp [Conv.clearPolling, Conv.clearTimer, hp, hht, List.mem_filter]
  · rw [happ.2, hfields.2.2, hfields.2.1, hfields.1]

/-- C2 witness: the amended theorem at the started sample state torn down with
an in-flight call resolving to balance `5`. -/
theorem C2_stale_result_applied_witness :
    Nymia.sampleStartedState.baselineBalance < 5 ∧
    (Conv.pollTickResolve 5
      (Conv.onDestroy Nymia.sampleStartedState)).conversionCompleted = true := by
  have hb : Nymia.sampleStartedState.baselineBalance < 5 := by
    have h0 : Nymia.sampleStartedState.baselineBalance = 0 := rfl
    rw [h0]
    norm_num
  exact ⟨hb, (C2_stale_result_applied Nymia.sampleStartedState 5 hb).2.2.2.1⟩

/-- C3 counterexample: when `send_currency_conversion` rejects with
`insufficient funds`, the surfaced message is the prefixed string
`Failed to start conversion: insufficient funds`, not the raised message
verbatim. -/
theorem C3_counterexample :
    (Conv.startConversion 100 (.ok 0) (.error "insufficient funds")
      { Conv.initialConvState with walletReady := true }).conversionError =
      some "Failed to start conversion: insufficient funds" ∧
    some "Failed to start conversion: insufficient funds" ≠
      (some "insufficient funds" : Option String) := by
  constructor
  · rfl
  · decide

/-- Lemma: `stopTimer` does not touch the invoked-command list. -/
theorem regStopTimer_invoked (s : Reg.RegState) :
    (Reg.stopTimer s).invoked = s.invoked := by
  unfold Reg.stopTimer
  cases h : s.timerInterval <;> simp [h]

/-- Lemma: `startTimer` does not touch the invoked-command list. -/
theorem regStartTimer_invoked (now : Nat) (s : Reg.RegState) :
    (Reg.startTimer now s).invoked = s.invoked := by
  unfold Reg.startTimer
  cases h : s.timerInterval <;> simp [h]

/-- The `catch` block does not touch the invoked-command list. -/
theorem regFail_invoked (msg : String) (s : Reg.RegState) :
    (Reg.fail msg s).invoked = s.invoked := by
  simp [Reg.fail, regStopTimer_invoked]

/-- The `catch` block surfaces the raised message verbatim in `errorMsg`,
moves the phase to `error`, and leaves no timer behind. -/
theorem regFail_facts (msg : String) (s : Reg.RegState) :
    (Reg.fail msg s).phase = .error ∧
    (Reg.fail msg s).errorMsg = some msg ∧
    (Reg.fail msg s).timerInterval = none ∧
    (s.timerInterval = none → (Reg.fail msg s).liveTimer = s.liveTimer) := by
  unfold Reg.fail Reg.stopTimer
  cases h : s.timerInterval <;> simp [h]

/-- C3 amended: a rejected one-shot submission call moves the tracker directly
to its failed state and the polling phase is never entered (no poll command is
issued, no interval is created); the raised message is surfaced verbatim in
the registration flow (`errorMsg = msg`) and embedded verbatim after the
prefix `Failed to start conversion: ` in the conversion flow. -/
theorem C3_submission_rejection_no_polling
    (sr : Reg.RegState) (now : Nat) (isRoot : Bool) (name nsName ref addr msg : String)
    (w1 : Except String Bool) (a1 a2 : Except String String) (w2 w3 : Except String Bool)
    (htimer : sr.timerInterval = none)
    (sc : Conv.ConvState) (nowc : Nat) (bq : ℚ) (cmsg : String)
    (hcan : Conv.internalCanProceed sc = true) :
    (Reg.startFlow now isRoot name nsName ref
      ⟨.ok addr, .error msg, w1, a1, a2, w2, w3⟩ sr).phase = .error ∧
    (Reg.startFlow now isRoot name nsName ref
      ⟨.ok addr, .error msg, w1, a1, a2, w2, w3⟩ sr).errorMsg = some msg ∧
    (Reg.startFlow now isRoot name nsName ref
      ⟨.ok addr, .error msg, w1, a1, a2, w2, w3⟩ sr).invoked =
      sr.invoked ++ [Reg.Cmd.getNewAddress,
        Reg.Cmd.registerNameCommitment name addr ref.trim (if isRoot then "" else nsName)] ∧
    (Reg.startFlow now isRoot name nsName ref
      ⟨.ok addr, .error msg, w1, a1, a2, w2, w3⟩ sr).timerInterval = none ∧
    (Reg.startFlow now isRoot name nsName ref
      ⟨.ok addr, .error msg, w1, a1, a2, w2, w3⟩ sr).liveTimer = sr.liveTimer ∧
    (Conv.startConversion nowc (.ok bq) (.error cmsg) sc).conversionError =
      some ("Failed to start conversion: " ++ cmsg) ∧
    (Conv.startConversion nowc (.ok bq) (.error cmsg) sc).converting = false ∧
    (Conv.startConversion nowc (.ok bq) (.error cmsg) sc).pollingInterval =
      sc.pollingInterval ∧
    (Conv.startConversion nowc (.ok bq) (.error cmsg) sc).livePolling = sc.livePolling ∧
    (Conv.startConversion nowc (.ok bq) (.error cmsg) sc).liveTimer = sc.liveTimer ∧
    (Conv.startConversion nowc (.ok bq) (.error cmsg) sc).events = sc.events := by
  refine ⟨?_, ?_, ?_, ?_, ?_, ?_, ?_, ?_, ?_, ?_, ?_⟩ <;>
    simp [Reg.startFlow, Reg.fail, Reg.stopTimer, htimer,
      Conv.startConversion, hcan]

/-- C3 witness: the amended theorem at a fresh registration state with
`register_name_commitment` rejecting `insufficient funds`, and a ready
conversion state with `send_currency_conversion` rejecting the same. -/
theorem C3_submission_rejection_no_polling_witness :
    Reg.initialRegState.timerInterval = none ∧
    Conv.internalCanProceed { Conv.initialConvState with walletReady := true } = true ∧
    (Reg.startFlow 0 true "alice" "vrsc" ""
      ⟨.ok "RAddr", .error "insufficient funds", .ok true, .ok "zs1", .ok "ftx",
        .ok true, .ok true⟩ Reg.initialRegState).phase = .error ∧
    (Conv.startConversion 0 (.ok 0) (.error "insufficient funds")
      { Conv.initialConvState with walletReady := true }).conversionError =
      some "Failed to start conversion: insufficient funds" :=
  ⟨rfl, rfl,
    (C3_submission_rejection_no_polling Reg.initialRegState 0 true "alice" "vrsc" ""
      "RAddr" "insufficient funds" (.ok true) (.ok "zs1") (.ok "ftx") (.ok true) (.ok true)
      rfl { Conv.initialConvState with walletReady := true } 0 0 "insufficient funds"
      rfl).1,
    (C3_submission_rejection_no_polling Reg.initialRegState 0 true "alice" "vrsc" ""
      "RAddr" "insufficient funds" (.ok true) (.ok "zs1") (.ok "ftx") (.ok true) (.ok true)
      rfl { Conv.initialConvState with walletReady := true } 0 0 "insufficient funds"
      rfl).2.2.2.2.2.1⟩

/-- C7: retrying after a failure produces a fresh cycle — `startTimer` (both
components) resets the elapsed-time counter to 0, clears any stale timer and
allocates a fresh handle distinct from the old one, while `retryConversion`
clears both the polling interval and the timer of the previous attempt. -/
theorem C7_retry_fresh_cycle (sr : Reg.RegState) (sc : Conv.ConvState)
    (now nowc : Nat) :
    (Reg.startTimer now sr).elapsedSeconds = 0 ∧
    (Reg.startTimer now sr).timerInterval = some sr.nextHandle ∧
    (∀ h, sr.timerInterval = some h → h < sr.nextHandle →
      sr.nextHandle ≠ h ∧ h ∉ (Reg.startTimer now sr).liveTimer) ∧
    (Conv.retryConversion sc).pollingInterval = none ∧
    (Conv.retryConversion sc).timerInterval = none ∧
    (∀ h, sc.pollingInterval = some h → h ∉ (Conv.retryConversion sc).livePolling) ∧
    (∀ h, sc.timerInterval = some h → h ∉ (Conv.retryConversion sc).liveTimer) ∧
    (Conv.startTimer nowc sc).elapsedSeconds = 0 ∧
    (Conv.startTimer nowc sc).timerInterval = some sc.nextHandle ∧
    (∀ h, sc.timerInterval = some h → h < sc.nextHandle →
      sc.nextHandle ≠ h ∧ h ∉ (Conv.startTimer nowc sc).liveTimer) := by
  refine ⟨?_, ?_, ?_, ?_, ?_, ?_, ?_, ?_, ?_, ?_⟩
  · unfold Reg.startTimer
    cases h : sr.timerInterval <;> simp [h]
  · unfold Reg.startTimer
    cases h : sr.timerInterval <;> simp [h]
  · intro h hh hlt
    refine ⟨by omega, ?_⟩
    unfold Reg.startTimer
    simp [hh, List.mem_filter]
    omega
  · unfold Conv.retryConversion Conv.stopTimer
    cases hp : sc.pollingInterval <;> cases ht : sc.timerInterval <;>
      simp [Conv.clearPolling, Conv.clearTimer, hp, ht]
  · unfold Conv.retryConversion Conv.stopTimer
    cases hp : sc.pollingInterval <;> cases ht : sc.timerInterval <;>
      simp [Conv.clearPolling, Conv.clearTimer, hp, ht]
  · intro h hh
    unfold Conv.retryConversion Conv.stopTimer
    cases ht : sc.timerInterval <;>
      simp [Conv.clearPolling, Conv.clearTimer, hh, ht, List.mem_filter]
  · intro h hh
    unfold Conv.retryConversion Conv.stopTimer
    cases hp : sc.pollingInterval <;>
      simp [Conv.clearPolling, Conv.clearTimer, hp, hh, List.mem_filter]
  · unfold Conv.startTimer
    cases h : sc.timerInterval <;> simp [Conv.clearTimer, h]
  · unfold Conv.startTimer
    cases h : sc.timerInterval <;> simp [Conv.clearTimer, h]
  · intro h hh hlt
    refine ⟨by omega, ?_⟩
    unfold Conv.startTimer
    simp [Conv.clearTimer, hh, List.mem_filter]
    omega

/-- C7 witness: the started sample state (timer handle `0`, next handle `2`);
the fresh timer handle is distinct from the stale one and the stale handle is
cleared. -/
theorem C7_retry_fresh_cycle_witness :
    Nymia.sampleStartedState.timerInterval = some 0 ∧
    (0 : Nat) < Nymia.sampleStartedState.nextHandle ∧
    Nymia.sampleStartedState.nextHandle ≠ 0 ∧
    0 ∉ (Conv.startTimer 5 Nymia.sampleStartedState).liveTimer :=
  ⟨rfl, by decide,
    ((C7_retry_fresh_cycle Reg.initialRegState Nymia.sampleStartedState 0
      5).2.2.2.2.2.2.2.2.2 0 rfl (by decide)).1,
    ((C7_retry_fresh_cycle Reg.initialRegState Nymia.sampleStartedState 0
      5).2.2.2.2.2.2.2.2.2 0 rfl (by decide)).2⟩

/-- Filtering a handle out of a list that is empty or exactly that handle
empties the list. -/
theorem filter_of_single (k : Nat) (l : List Nat) (h : l = [] ∨ l = [k]) :
    l.filter (fun x => x ≠ k) = [] := by
  rcases h with rfl | rfl <;> simp

/-- The invariant holds initially. -/
theorem convInv_initial : Conv.ConvInv Conv.initialConvState :=
  ⟨fun _ => rfl, fun h hh => by simp [Conv.initialConvState] at hh,
   fun _ => rfl, fun h hh => by simp [Conv.initialConvState] at hh,
   fun _ => rfl⟩

/-- Lemma: `stopTimer` preserves the invariant. -/
theorem convInv_stopTimer (s : Conv.ConvState) (hInv : Conv.ConvInv s) :
    Conv.ConvInv (Conv.stopTimer s) := by
  obtain ⟨h1, h2, h3, h4, h5⟩ := hInv
  unfold Conv.stopTimer
  cases ht : s.timerInterval with
  | none => exact ⟨h1, h2, h3, h4, h5⟩
  | some k =>
    refine ⟨h1, fun h hh => h2 h hh, fun _ => ?_, fun h hh => ?_, h5⟩
    · exact filter_of_single k s.liveTimer (h4 k ht).1
    · exact Option.noConfusion hh

/-- Fields of `startTimer` that the polling clauses depend on. -/
theorem startTimer_fields (now : Nat) (s : Conv.ConvState) :
    (Conv.startTimer now s).pollingInterval = s.pollingInterval ∧
    (Conv.startTimer now s).livePolling = s.livePolling ∧
    (Conv.startTimer now s).conversionStarted = s.conversionStarted ∧
    (Conv.startTimer now s).timerInterval = some s.nextHandle ∧
    (Conv.startTimer now s).nextHandle = s.nextHandle + 1 := by
  unfold Conv.startTimer
  cases ht : s.timerInterval <;> simp [Conv.clearTimer, ht]

/-- Lemma: `startTimer` preserves the invariant. -/
theorem convInv_startTimer (now : Nat) (s : Conv.ConvState)
    (hInv : Conv.ConvInv s) : Conv.ConvInv (Conv.startTimer now s) := by
  obtain ⟨h1, h2, h3, h4, h5⟩ := hInv
  obtain ⟨f1, f2, f3, f4, f5⟩ := startTimer_fields now s
  have hlive : (Conv.startTimer now s).liveTimer = [s.nextHandle] := by
    unfold Conv.startTimer
    cases ht : s.timerInterval with
    | none => simp [Conv.clearTimer, ht, h3 ht]
    | some k =>
      simp [Conv.clearTimer, ht]
      rcases (h4 k ht).1 with he | he <;> simp [he]
  refine ⟨?_, ?_, ?_, ?_, ?_⟩
  · intro hh
    rw [f2]
    exact h1 (f1 ▸ hh)
  · intro h hh
    rw [f1] at hh
    obtain ⟨ho, hn⟩ := h2 h hh
    rw [f2, f5]
    exact ⟨ho, by omega⟩
  · intro hh
    rw [f4] at hh
    exact Option.noConfusion hh
  · intro h hh
    rw [f4] at hh
    obtain rfl : s.nextHandle = h := Option.some.inj hh
    rw [hlive, f5]
    exact ⟨Or.inr rfl, by omega⟩
  · intro hh
    rw [f2]
    exact h5 (f3 ▸ hh)

/-- Fields of `startPolling`. -/
theorem startPolling_fields (s : Conv.ConvState) :
    (Conv.startPolling s).pollingInterval = some s.nextHandle ∧
    (Conv.startPolling s).livePolling = s.nextHandle :: s.livePolling ∧
    (Conv.startPolling s).conversionStarted = s.conversionStarted ∧
    (Conv.startPolling s).timerInterval = s.timerInterval ∧
    (Conv.startPolling s).liveTimer = s.liveTimer ∧
    (Conv.startPolling s).nextHandle = s.nextHandle + 1 := by
  unfold Conv.startPolling
  simp

/-- Lemma: `startPolling` preserves the invariant provided no polling interval is
live and the conversion is marked started (exactly the situation the
`internalCanProceed` guard of `startConversion` establishes). -/
theorem convInv_startPolling (s : Conv.ConvState)
    (hEmpty : s.livePolling = []) (hStarted : s.conversionStarted = true)
    (hInv : Conv.ConvInv s) : Conv.ConvInv (Conv.startPolling s) := by
  obtain ⟨h1, h2, h3, h4, h5⟩ := hInv
  obtain ⟨f1, f2, f3, f4, f5, f6⟩ := startPolling_fields s
  refine ⟨?_, ?_, ?_, ?_, ?_⟩
  · intro hh
    rw [f1] at hh
    exact Option.noConfusion hh
  · intro h hh
    rw [f1] at hh
    obtain rfl : s.nextHandle = h := Option.some.inj hh
    rw [f2, hEmpty, f6]
    exact ⟨Or.inr rfl, by omega⟩
  · intro hh
    rw [f5]
    exact h3 (f4 ▸ hh)
  · intro h hh
    rw [f4] at hh
    obtain ⟨ho, hn⟩ := h4 h hh
    rw [f5, f6]
    exact ⟨ho, by omega⟩
  · intro hh
    rw [f3, hStarted] at hh
    exact absurd hh (by simp)

/-- Lemma: `completeConversion` preserves the invariant (it clears everything). -/
theorem convInv_completeConversion (q : ℚ) (s : Conv.ConvState)
    (hInv : Conv.ConvInv s) : Conv.ConvInv (Conv.completeConversion q s) := by
  obtain ⟨h1, h2, h3, h4, h5⟩ := hInv
  have g1 : (Conv.completeConversion q s).pollingInterval = none :=
    (completeConversion_facts s q).2.1
  have grest : (Conv.completeConversion q s).timerInterval = none ∧
      (Conv.completeConversion q s).livePolling = [] ∧
      (Conv.completeConversion q s).liveTimer = [] := by
    unfold Conv.completeConversion Conv.stopTimer
    cases hp : s.pollingInterval with
    | none =>
      cases ht : s.timerInterval with
      | none => simp [Conv.clearPolling, Conv.clearTimer, hp, ht, h1 hp, h3 ht]
      | some k =>
        simp [Conv.clearPolling, Conv.clearTimer, hp, ht, h1 hp]
        rcases (h4 k ht).1 with he | he <;> simp [he]
    | some j =>
      cases ht : s.timerInterval with
      | none =>
        simp [Conv.clearPolling, Conv.clearTimer, hp, ht, h3 ht]
        rcases (h2 j hp).1 with he | he <;> simp [he]
      | some k =>
        simp [Conv.clearPolling, Conv.clearTimer, hp, ht]
        constructor
        · rcases (h2 j hp).1 with he | he <;> simp [he]
        · rcases (h4 k ht).1 with he | he <;> simp [he]
  obtain ⟨g2, g3, g4⟩ := grest
  exact ⟨fun _ => g3, fun h hh => absurd (g1.symm.trans hh) (by simp),
    fun _ => g4, fun h hh => absurd (g2.symm.trans hh) (by simp), fun _ => g3⟩

/-- A resolving poll tick preserves the invariant. -/
theorem convInv_pollTickResolve (b : ℚ) (s : Conv.ConvState)
    (hInv : Conv.ConvInv s) : Conv.ConvInv (Conv.pollTickResolve b s) := by
  unfold Conv.pollTickResolve
  by_cases hlt : s.baselineBalance < b
  · rw [if_pos hlt]
    exact convInv_completeConversion _ s hInv
  · rw [if_neg hlt]
    exact hInv

/-- Lemma: `retryConversion` preserves the invariant (it clears both intervals). -/
theorem convInv_retryConversion (s : Conv.ConvState)
    (hInv : Conv.ConvInv s) : Conv.ConvInv (Conv.retryConversion s) := by
  obtain ⟨h1, h2, h3, h4, h5⟩ := hInv
  have grest : (Conv.retryConversion s).pollingInterval = none ∧
      (Conv.retryConversion s).timerInterval = none ∧
      (Conv.retryConversion s).livePolling = [] ∧
      (Conv.retryConversion s).liveTimer = [] := by
    unfold Conv.retryConversion Conv.stopTimer
    cases hp : s.pollingInterval with
    | none =>
      cases ht : s.timerInterval with
      | none => simp [Conv.clearPolling, Conv.clearTimer, hp, ht, h1 hp, h3 ht]
      | some k =>
        simp [Conv.clearPolling, Conv.clearTimer, hp, ht, h1 hp]
        rcases (h4 k ht).1 with he | he <;> simp [he]
    | some j =>
      cases ht : s.timerInterval with
      | none =>
        simp [Conv.clearPolling, Conv.clearTimer, hp, ht, h3 ht]
        rcases (h2 j hp).1 with he | he <;> simp [he]
      | some k =>
        simp [Conv.clearPolling, Conv.clearTimer, hp, ht]
        constructor
        · rcases (h2 j hp).1 with he | he <;> simp [he]
        · rcases (h4 k ht).1 with he | he <;> simp [he]
  obtain ⟨g1, g2, g3, g4⟩ := grest
  exact ⟨fun _ => g3, fun h hh => absurd (g1.symm.trans hh) (by simp),
    fun _ => g4, fun h hh => absurd (g2.symm.trans hh) (by simp), fun _ => g3⟩

/-- The `onDestroy` teardown preserves the invariant. -/
theorem convInv_onDestroy (s : Conv.ConvState) (hInv : Conv.ConvInv s) :
    Conv.ConvInv (Conv.onDestroy s) := by
  obtain ⟨h1, h2, h3, h4, h5⟩ := hInv
  cases hp : s.pollingInterval with
  | none =>
    cases ht : s.timerInterval with
    | none =>
      have e : Conv.onDestroy s = s := by
        unfold Conv.onDestroy
        simp [hp, ht]
      rw [e]
      exact ⟨h1, h2, h3, h4, h5⟩
    | some k =>
      have e : Conv.onDestroy s = Conv.clearTimer k s := by
        unfold Conv.onDestroy
        simp [hp, ht]
      rw [e]
      refine ⟨h1, h2, fun _ => ?_, fun h hh => ?_, h5⟩
      · exact filter_of_single k s.liveTimer (h4 k ht).1
      · obtain rfl : k = h := Option.some.inj (ht.symm.trans hh)
        exact ⟨Or.inl (filter_of_single k s.liveTimer (h4 k ht).1), (h4 k ht).2⟩
  | some j =>
    cases ht : s.timerInterval with
    | none =>
      have e : Conv.onDestroy s = Conv.clearPolling j s := by
        unfold Conv.onDestroy
        simp [Conv.clearPolling, hp, ht]
      rw [e]
      refine ⟨fun _ => ?_, fun h hh => ?_, h3, h4, fun _ => ?_⟩
      · exact filter_of_single j s.livePolling (h2 j hp).1
      · obtain rfl : j = h := Option.some.inj (hp.symm.trans hh)
        exact ⟨Or.inl (filter_of_single j s.livePolling (h2 j hp).1), (h2 j hp).2⟩
      · exact filter_of_single j s.livePolling (h2 j hp).1
    | some k =>
      have e : Conv.onDestroy s = Conv.clearTimer k (Conv.clearPolling j s) := by
        unfold Conv.onDestroy
        simp [Conv.clearPolling, hp, ht]
      rw [e]
      refine ⟨fun _ => ?_, fun h hh => ?_, fun _ => ?_, fun h hh => ?_, fun _ => ?_⟩
      · exact filter_of_single j s.livePolling (h2 j hp).1
      · obtain rfl : j = h := Option.some.inj (hp.symm.trans hh)
        exact ⟨Or.inl (filter_of_single j s.livePolling (h2 j hp).1), (h2 j hp).2⟩
      · exact filter_of_single k s.liveTimer (h4 k ht).1
      · obtain rfl : k = h := Option.some.inj (ht.symm.trans hh)
        exact ⟨Or.inl (filter_of_single k s.liveTimer (h4 k ht).1), (h4 k ht).2⟩
      · exact filter_of_single j s.livePolling (h2 j hp).1

/-- Lemma: `startConversion` preserves the invariant. -/
theorem convInv_startConversion (now : Nat) (br : Except String ℚ)
    (sr : Except String String) (s : Conv.ConvState) (hInv : Conv.ConvInv s) :
    Conv.ConvInv (Conv.startConversion now br sr s) := by
  obtain ⟨h1, h2, h3, h4, h5⟩ := hInv
  unfold Conv.startConversion
  by_cases hg : Conv.internalCanProceed s = true
  · rw [if_neg (by simp [hg])]
    have hg2 := hg
    simp [Conv.internalCanProceed] at hg2
    have hcs : s.conversionStarted = false := hg2.1.2
    cases br with
    | error e => exact ⟨h1, h2, h3, h4, h5⟩
    | ok bq =>
      cases sr with
      | error e => exact ⟨h1, h2, h3, h4, h5⟩
      | ok txid =>
        apply convInv_startPolling
        · rw [(startTimer_fields now _).2.1]
          exact h5 hcs
        · rw [(startTimer_fields now _).2.2.1]
        · apply convInv_startTimer
          refine ⟨h1, h2, h3, h4, fun hh => ?_⟩
          exact absurd hh (by simp)
  · have hgf : Conv.internalCanProceed s = false := by
      cases hcase : Conv.internalCanProceed s
      · rfl
      · exact absurd hcase hg
    rw [if_pos (by simp [hgf])]
    exact ⟨h1, h2, h3, h4, h5⟩

/-- Every reachable state of the conversion component satisfies the
invariant. -/
theorem convInv_of_reach (s : Conv.ConvState) (h : Conv.ConvReach s) :
    Conv.ConvInv s := by
  induction h with
  | init => exact convInv_initial
  | step hr hst ih =>
    cases hst with
    | startConv now br sr => exact convInv_startConversion now br sr _ ih
    | tickResolve b => exact convInv_pollTickResolve b _ ih
    | tickError => exact ih
    | retry => exact convInv_retryConversion _ ih
    | destroy => exact convInv_onDestroy _ ih
    | stopT => exact convInv_stopTimer _ ih
    | setWallet b => exact ih

/-- Lemma: the registration invariant holds initially. -/
theorem regInv_initial : Reg.RegInv Reg.initialRegState :=
  ⟨fun _ => rfl, fun h hh => by simp [Reg.initialRegState] at hh⟩

/-- Lemma: `Reg.stopTimer` preserves the registration invariant (it clears
the handle and empties the live list). -/
theorem regInv_stopTimer (s : Reg.RegState) (h : Reg.RegInv s) :
    Reg.RegInv (Reg.stopTimer s) := by
  obtain ⟨h1, h2⟩ := h
  have hti : (Reg.stopTimer s).timerInterval = none := by
    unfold Reg.stopTimer
    cases ht : s.timerInterval <;> simp [ht]
  have hl : (Reg.stopTimer s).liveTimer = [] := by
    unfold Reg.stopTimer
    cases ht : s.timerInterval with
    | none => simp [ht, h1 ht]
    | some k =>
      simp [ht]
      rcases (h2 k ht).1 with he | he <;> simp [he]
  exact ⟨fun _ => hl, fun h2 hh => absurd (hti.symm.trans hh) (by simp)⟩

/-- Lemma: the `catch` block (`fail`) preserves the registration invariant —
it is `stopTimer` followed by updates that do not touch the timer fields. -/
theorem regInv_fail (msg : String) (s : Reg.RegState) (h : Reg.RegInv s) :
    Reg.RegInv (Reg.fail msg s) :=
  regInv_stopTimer s h

/-- Lemma: `Reg.startTimer` preserves the registration invariant: it clears
any prior timer before scheduling the fresh handle. -/
theorem regInv_startTimer (now : Nat) (s : Reg.RegState) (h : Reg.RegInv s) :
    Reg.RegInv (Reg.startTimer now s) := by
  obtain ⟨h1, h2⟩ := h
  have hti : (Reg.startTimer now s).timerInterval = some s.nextHandle := by
    unfold Reg.startTimer
    cases ht : s.timerInterval <;> simp [ht]
  have hnh : (Reg.startTimer now s).nextHandle = s.nextHandle + 1 := by
    unfold Reg.startTimer
    cases ht : s.timerInterval <;> simp [ht]
  have hl : (Reg.startTimer now s).liveTimer = [s.nextHandle] := by
    unfold Reg.startTimer
    cases ht : s.timerInterval with
    | none => simp [ht, h1 ht]
    | some k =>
      simp [ht]
      rcases (h2 k ht).1 with he | he <;> simp [he]
  refine ⟨fun hh => absurd (hti.symm.trans hh) (by simp), fun h2 hh => ?_⟩
  obtain rfl : s.nextHandle = h2 := Option.some.inj (hti.symm.trans hh)
  rw [hl, hnh]
  exact ⟨Or.inr rfl, by omega⟩

/-- Lemma: the unmount cleanup preserves the registration invariant. -/
theorem regInv_unmountCleanup (s : Reg.RegState) (h : Reg.RegInv s) :
    Reg.RegInv (Reg.unmountCleanup s) := by
  obtain ⟨h1, h2⟩ := h
  cases ht : s.timerInterval with
  | none =>
    have e : Reg.unmountCleanup s = s := by
      unfold Reg.unmountCleanup
      simp [ht]
    rw [e]
    exact ⟨h1, h2⟩
  | some k =>
    have hti : (Reg.unmountCleanup s).timerInterval = some k := by
      unfold Reg.unmountCleanup
      simp [ht]
    have hnh : (Reg.unmountCleanup s).nextHandle = s.nextHandle := by
      unfold Reg.unmountCleanup
      simp [ht]
    have hl : (Reg.unmountCleanup s).liveTimer =
        s.liveTimer.filter (fun x => x ≠ k) := by
      unfold Reg.unmountCleanup
      simp [ht]
    refine ⟨fun hh => absurd (hti.symm.trans hh) (by simp), fun h2x hh => ?_⟩
    obtain rfl : k = h2x := Option.some.inj (hti.symm.trans hh)
    rw [hl, hnh]
    exact ⟨Or.inl (filter_of_single k s.liveTimer (h2 k ht).1), (h2 k ht).2⟩

set_option maxHeartbeats 4000000 in
/-- Lemma: a whole `startFlow` run preserves the registration invariant — on
every control path its timer manipulations are `startTimer`/`stopTimer`/`fail`
interleaved with updates that do not touch the timer fields, and every path
ends with the timer cleared. -/
theorem regInv_startFlow (now : Nat) (isRoot : Bool) (name nsName ref : String)
    (inp : Reg.FlowInputs) (s : Reg.RegState) (hInv : Reg.RegInv s) :
    Reg.RegInv (Reg.startFlow now isRoot name nsName ref inp s) := by
  obtain ⟨h1, h2⟩ := hInv
  obtain ⟨i1, i2, i3, i4, i5, i6, i7⟩ := inp
  cases hts : s.timerInterval with
  | none =>
    have hl : s.liveTimer = [] := h1 hts
    cases i1 with
    | error e => simp [Reg.startFlow, Reg.fail, Reg.startTimer, Reg.stopTimer, Reg.RegInv, hts, hl]
    | ok a1 =>
    cases i2 with
    | error e => simp [Reg.startFlow, Reg.fail, Reg.startTimer, Reg.stopTimer, Reg.RegInv, hts, hl]
    | ok a2 =>
    cases i3 with
    | error e => simp [Reg.startFlow, Reg.fail, Reg.startTimer, Reg.stopTimer, Reg.RegInv, hts, hl]
    | ok cOk =>
    cases cOk with
    | false => simp [Reg.startFlow, Reg.fail, Reg.startTimer, Reg.stopTimer, Reg.RegInv, hts, hl]
    | true =>
    cases i4 with
    | error e => simp [Reg.startFlow, Reg.fail, Reg.startTimer, Reg.stopTimer, Reg.RegInv, hts, hl]
    | ok a4 =>
    cases i5 with
    | error e => simp [Reg.startFlow, Reg.fail, Reg.startTimer, Reg.stopTimer, Reg.RegInv, hts, hl]
    | ok a5 =>
    cases i6 with
    | error e => simp [Reg.startFlow, Reg.fail, Reg.startTimer, Reg.stopTimer, Reg.RegInv, hts, hl]
    | ok fOk =>
    cases fOk with
    | false => simp [Reg.startFlow, Reg.fail, Reg.startTimer, Reg.stopTimer, Reg.RegInv, hts, hl]
    | true =>
    cases i7 with
    | error e => simp [Reg.startFlow, Reg.fail, Reg.startTimer, Reg.stopTimer, Reg.RegInv, hts, hl]
    | ok rdy =>
    cases rdy with
    | false => simp [Reg.startFlow, Reg.fail, Reg.startTimer, Reg.stopTimer, Reg.RegInv, hts, hl]
    | true => simp [Reg.startFlow, Reg.fail, Reg.startTimer, Reg.stopTimer, Reg.RegInv, hts, hl]
  | some k =>
    rcases (h2 k hts).1 with hl | hl
    · cases i1 with
      | error e => simp [Reg.startFlow, Reg.fail, Reg.startTimer, Reg.stopTimer, Reg.RegInv, hts, hl]
      | ok a1 =>
      cases i2 with
      | error e => simp [Reg.startFlow, Reg.fail, Reg.startTimer, Reg.stopTimer, Reg.RegInv, hts, hl]
      | ok a2 =>
      cases i3 with
      | error e => simp [Reg.startFlow, Reg.fail, Reg.startTimer, Reg.stopTimer, Reg.RegInv, hts, hl]
      | ok cOk =>
      cases cOk with
      | false => simp [Reg.startFlow, Reg.fail, Reg.startTimer, Reg.stopTimer, Reg.RegInv, hts, hl]
      | true =>
      cases i4 with
      | error e => simp [Reg.startFlow, Reg.fail, Reg.startTimer, Reg.stopTimer, Reg.RegInv, hts, hl]
      | ok a4 =>
      cases i5 with
      | error e => simp [Reg.startFlow, Reg.fail, Reg.startTimer, Reg.stopTimer, Reg.RegInv, hts, hl]
      | ok a5 =>
      cases i6 with
      | error e => simp [Reg.startFlow, Reg.fail, Reg.startTimer, Reg.stopTimer, Reg.RegInv, hts, hl]
      | ok fOk =>
      cases fOk with
      | false => simp [Reg.startFlow, Reg.fail, Reg.startTimer, Reg.stopTimer, Reg.RegInv, hts, hl]
      | true =>
      cases i7 with
      | error e => simp [Reg.startFlow, Reg.fail, Reg.startTimer, Reg.stopTimer, Reg.RegInv, hts, hl]
      | ok rdy =>
      cases rdy with
      | false => simp [Reg.startFlow, Reg.fail, Reg.startTimer, Reg.stopTimer, Reg.RegInv, hts, hl]
      | true => simp [Reg.startFlow, Reg.fail, Reg.startTimer, Reg.stopTimer, Reg.RegInv, hts, hl]
    · cases i1 with
      | error e => simp [Reg.startFlow, Reg.fail, Reg.startTimer, Reg.stopTimer, Reg.RegInv, hts, hl]
      | ok a1 =>
      cases i2 with
      | error e => simp [Reg.startFlow, Reg.fail, Reg.startTimer, Reg.stopTimer, Reg.RegInv, hts, hl]
      | ok a2 =>
      cases i3 with
      | error e => simp [Reg.startFlow, Reg.fail, Reg.startTimer, Reg.stopTimer, Reg.RegInv, hts, hl]
      | ok cOk =>
      cases cOk with
      | false => simp [Reg.startFlow, Reg.fail, Reg.startTimer, Reg.stopTimer, Reg.RegInv, hts, hl]
      | true =>
      cases i4 with
      | error e => simp [Reg.startFlow, Reg.fail, Reg.startTimer, Reg.stopTimer, Reg.RegInv, hts, hl]
      | ok a4 =>
      cases i5 with
      | error e => simp [Reg.startFlow, Reg.fail, Reg.startTimer, Reg.stopTimer, Reg.RegInv, hts, hl]
      | ok a5 =>
      cases i6 with
      | error e => simp [Reg.startFlow, Reg.fail, Reg.startTimer, Reg.stopTimer, Reg.RegInv, hts, hl]
      | ok fOk =>
      cases fOk with
      | false => simp [Reg.startFlow, Reg.fail, Reg.startTimer, Reg.stopTimer, Reg.RegInv, hts, hl]
      | true =>
      cases i7 with
      | error e => simp [Reg.startFlow, Reg.fail, Reg.startTimer, Reg.stopTimer, Reg.RegInv, hts, hl]
      | ok rdy =>
      cases rdy with
      | false => simp [Reg.startFlow, Reg.fail, Reg.startTimer, Reg.stopTimer, Reg.RegInv, hts, hl]
      | true => simp [Reg.startFlow, Reg.fail, Reg.startTimer, Reg.stopTimer, Reg.RegInv, hts, hl]

/-- Lemma: every reachable state of the registration component satisfies the
invariant. -/
theorem regInv_of_reach (s : Reg.RegState) (h : Reg.RegReach s) :
    Reg.RegInv s := by
  induction h with
  | init => exact regInv_initial
  | step hr hst ih =>
    cases hst with
    | flow now isRoot name nsName ref inp =>
      exact regInv_startFlow now isRoot name nsName ref inp _ ih
    | startT now => exact regInv_startTimer now _ ih
    | stopT => exact regInv_stopTimer _ ih
    | unmount => exact regInv_unmountCleanup _ ih

/-- C5: in every reachable state of each tracker instance there is at most
one live interval timer per role — at most one polling interval and one
1-second timer in the conversion tracker, and at most one timer in the
registration tracker — because every operation that starts a new attempt
(`startTimer`, `startPolling` via `startConversion`'s guard,
`retryConversion`) clears or never duplicates the previous interval. -/
theorem C5_at_most_one_live_interval (sc : Conv.ConvState) (sr : Reg.RegState)
    (hc : Conv.ConvReach sc) (hr : Reg.RegReach sr) :
    sc.livePolling.length ≤ 1 ∧ sc.liveTimer.length ≤ 1 ∧
    sr.liveTimer.length ≤ 1 := by
  obtain ⟨h1, h2, h3, h4, h5⟩ := convInv_of_reach sc hc
  obtain ⟨r1, r2⟩ := regInv_of_reach sr hr
  refine ⟨?_, ?_, ?_⟩
  · cases hp : sc.pollingInterval with
    | none =>
      rw [h1 hp]
      simp
    | some j => rcases (h2 j hp).1 with he | he <;> simp [he]
  · cases ht : sc.timerInterval with
    | none =>
      rw [h3 ht]
      simp
    | some k => rcases (h4 k ht).1 with he | he <;> simp [he]
  · cases ht : sr.timerInterval with
    | none =>
      rw [r1 ht]
      simp
    | some k => rcases (r2 k ht).1 with he | he <;> simp [he]

/-- C5 witness: the reachable started conversion sample state and the
registration state reached by one `startTimer` both have at most one live
interval of each role. -/
theorem C5_at_most_one_live_interval_witness :
    Nymia.sampleStartedState.livePolling.length ≤ 1 ∧
    Nymia.sampleStartedState.liveTimer.length ≤ 1 ∧
    (Reg.startTimer 7 Reg.initialRegState).liveTimer.length ≤ 1 :=
  C5_at_most_one_live_interval Nymia.sampleStartedState
    (Reg.startTimer 7 Reg.initialRegState)
    (Conv.ConvReach.step
      (Conv.ConvReach.step Conv.ConvReach.init
        (Conv.ConvStep.setWallet true Conv.initialConvState))
      (Conv.ConvStep.startConv 100 (.ok 0) (.ok "txid1")
        { Conv.initialConvState with walletReady := true }))
    (Reg.RegReach.step Reg.RegReach.init
      (Reg.RegStep.startT 7 Reg.initialRegState))

/-- With a never-true readiness predicate and positive interval, the modelled
poll loop times out at tick `timeout / interval + 1` — the first tick whose
elapsed time exceeds the timeout — having made exactly that many predicate
calls, for every sufficient fuel. -/
theorem pollLoop_never_ready (interval timeout : Nat) (hi : 0 < interval) :
    ∀ fuel tick, tick < timeout / interval + 1 →
      timeout / interval + 1 ≤ tick + fuel →
      SpecPoll.pollLoop (fun _ => false) interval timeout tick fuel =
        .timedOut ((timeout / interval + 1) * interval) (timeout / interval + 1) := by
  have hq_le : (timeout / interval) * interval ≤ timeout := Nat.div_mul_le_self _ _
  have hlt : timeout < (timeout / interval + 1) * interval := by
    have hdm := Nat.div_add_mod timeout interval
    have hmod : timeout % interval < interval := Nat.mod_lt _ hi
    calc timeout = interval * (timeout / interval) + timeout % interval := hdm.symm
      _ < interval * (timeout / interval) + interval := by omega
      _ = (timeout / interval + 1) * interval := by ring
  intro fuel
  induction fuel with
  | zero =>
    intro tick htick hfuel
    omega
  | succ n ih =>
    intro tick htick hfuel
    simp only [SpecPoll.pollLoop]
    by_cases hcase : timeout < (tick + 1) * interval
    · have heq : tick + 1 = timeout / interval + 1 := by
        have hge : ¬(tick + 1 ≤ timeout / interval) := by
          intro hle
          have hmul : (tick + 1) * interval ≤ (timeout / interval) * interval :=
            Nat.mul_le_mul_right _ hle
          omega
        omega
      rw [if_pos hcase, heq]
      simp
    · have hnext : tick + 1 < timeout / interval + 1 := by
        by_contra hcon
        have hge : timeout / interval + 1 ≤ tick + 1 := by omega
        have hmul : (timeout / interval + 1) * interval ≤ (tick + 1) * interval :=
          Nat.mul_le_mul_right _ hge
        omega
      rw [if_neg hcase]
      have hr := ih (tick + 1) hnext (by omega)
      simpa using hr

set_option maxHeartbeats 2000000 in
/-- Every backend command a `startFlow` run issues (beyond those already
recorded) is a bounded wait: the two `wait_for_block_increase` calls and the
`wait_for_identity_ready` call always carry `intervalSecs = 10` and
`timeoutSecs = 1800`. -/
theorem startFlow_invoked_bounded (now : Nat) (isRoot : Bool)
    (name nsName ref : String) (inp : Reg.FlowInputs) (s : Reg.RegState) :
    ∀ c ∈ (Reg.startFlow now isRoot name nsName ref inp s).invoked,
      c ∈ s.invoked ∨ Reg.boundedWait c := by
  intro c hc
  obtain ⟨i1, i2, i3, i4, i5, i6, i7⟩ := inp
  simp only [Reg.startFlow] at hc
  cases i1 with
  | error e =>
    simp only [Bool.true_eq_false, if_false, regFail_invoked, regStartTimer_invoked,
      regStopTimer_invoked, reduceIte, List.append_eq, List.mem_append,
      List.mem_singleton, or_assoc] at hc
    rcases hc with hc | rfl
    · exact Or.inl hc
    · exact Or.inr trivial
  | ok a1 =>
  cases i2 with
  | error e =>
    simp only [Bool.true_eq_false, if_false, regFail_invoked, regStartTimer_invoked,
      regStopTimer_invoked, reduceIte, List.append_eq, List.mem_append,
      List.mem_singleton, or_assoc] at hc
    rcases hc with hc | rfl | rfl
    · exact Or.inl hc
    · exact Or.inr trivial
    · exact Or.inr trivial
  | ok a2 =>
  cases i3 with
  | error e =>
    simp only [Bool.true_eq_false, if_false, regFail_invoked, regStartTimer_invoked,
      regStopTimer_invoked, reduceIte, List.append_eq, List.mem_append,
      List.mem_singleton, or_assoc] at hc
    rcases hc with hc | rfl | rfl | rfl
    · exact Or.inl hc
    · exact Or.inr trivial
    · exact Or.inr trivial
    · exact Or.inr ⟨rfl, rfl⟩
  | ok cOk =>
  cases cOk with
  | false =>
    simp only [Bool.true_eq_false, if_false, regFail_invoked, regStartTimer_invoked,
      regStopTimer_invoked, reduceIte, List.append_eq, List.mem_append,
      List.mem_singleton, or_assoc] at hc
    rcases hc with hc | rfl | rfl | rfl
    · exact Or.inl hc
    · exact Or.inr trivial
    · exact Or.inr trivial
    · exact Or.inr ⟨rfl, rfl⟩
  | true =>
  cases i4 with
  | error e =>
    simp only [Bool.true_eq_false, if_false, regFail_invoked, regStartTimer_invoked,
      regStopTimer_invoked, reduceIte, List.append_eq, List.mem_append,
      List.mem_singleton, or_assoc] at hc
    rcases hc with hc | rfl | rfl | rfl | rfl
    · exact Or.inl hc
    · exact Or.inr trivial
    · exact Or.inr trivial
    · exact Or.inr ⟨rfl, rfl⟩
    · exact Or.inr trivial
  | ok a4 =>
  cases i5 with
  | error e =>
    simp only [Bool.true_eq_false, if_false, regFail_invoked, regStartTimer_invoked,
      regStopTimer_invoked, reduceIte, List.append_eq, List.mem_append,
      List.mem_singleton, or_assoc] at hc
    rcases hc with hc | rfl | rfl | rfl | rfl | rfl
    · exact Or.inl hc
    · exact Or.inr trivial
    · exact Or.inr trivial
    · exact Or.inr ⟨rfl, rfl⟩
    · exact Or.inr trivial
    · exact Or.inr trivial
  | ok a5 =>
  cases i6 with
  | error e =>
    simp only [Bool.true_eq_false, if_false, regFail_invoked, regStartTimer_invoked,
      regStopTimer_invoked, reduceIte, List.append_eq, List.mem_append,
      List.mem_singleton, or_assoc] at hc
    rcases hc with hc | rfl | rfl | rfl | rfl | rfl | rfl
    · exact Or.inl hc
    · exact Or.inr trivial
    · exact Or.inr trivial
    · exact Or.inr ⟨rfl, rfl⟩
    · exact Or.inr trivial
    · exact Or.inr trivial
    · exact Or.inr ⟨rfl, rfl⟩
  | ok fOk =>
  cases fOk with
  | false =>
    simp only [Bool.true_eq_false, if_false, regFail_invoked, regStartTimer_invoked,
      regStopTimer_invoked, reduceIte, List.append_eq, List.mem_append,
      List.mem_singleton, or_assoc] at hc
    rcases hc with hc | rfl | rfl | rfl | rfl | rfl | rfl
    · exact Or.inl hc
    · exact Or.inr trivial
    · exact Or.inr trivial
    · exact Or.inr ⟨rfl, rfl⟩
    · exact Or.inr trivial
    · exact Or.inr trivial
    · exact Or.inr ⟨rfl, rfl⟩
  | true =>
  cases i7 with
  | error e =>
    simp only [Bool.true_eq_false, if_false, regFail_invoked, regStartTimer_invoked,
      regStopTimer_invoked, reduceIte, List.append_eq, List.mem_append,
      List.mem_singleton, or_assoc] at hc
    rcases hc with hc | rfl | rfl | rfl | rfl | rfl | rfl | rfl
    · exact Or.inl hc
    · exact Or.inr trivial
    · exact Or.inr trivial
    · exact Or.inr ⟨rfl, rfl⟩
    · exact Or.inr trivial
    · exact Or.inr trivial
    · exact Or.inr ⟨rfl, rfl⟩
    · exact Or.inr ⟨rfl, rfl⟩
  | ok rdy =>
  cases rdy with
  | false =>
    simp only [Bool.true_eq_false, if_false, regFail_invoked, regStartTimer_invoked,
      regStopTimer_invoked, reduceIte, List.append_eq, List.mem_append,
      List.mem_singleton, or_assoc] at hc
    rcases hc with hc | rfl | rfl | rfl | rfl | rfl | rfl | rfl
    · exact Or.inl hc
    · exact Or.inr trivial
    · exact Or.inr trivial
    · exact Or.inr ⟨rfl, rfl⟩
    · exact Or.inr trivial
    · exact Or.inr trivial
    · exact Or.inr ⟨rfl, rfl⟩
    · exact Or.inr ⟨rfl, rfl⟩
  | true =>
    simp only [Bool.true_eq_false, if_false, regFail_invoked, regStartTimer_invoked,
      regStopTimer_invoked, reduceIte, List.append_eq, List.mem_append,
      List.mem_singleton, or_assoc] at hc
    rcases hc with hc | rfl | rfl | rfl | rfl | rfl | rfl | rfl
    · exact Or.inl hc
    · exact Or.inr trivial
    · exact Or.inr trivial
    · exact Or.inr ⟨rfl, rfl⟩
    · exact Or.inr trivial
    · exact Or.inr trivial
    · exact Or.inr ⟨rfl, rfl⟩
    · exact Or.inr ⟨rfl, rfl⟩

/-- C4: for `interval > 0` and `timeout > 0`, a never-ready predicate makes
the modelled poller fail by timeout at elapsed time in `(timeout, timeout +
interval]` with exactly `timeout / interval + 1` predicate calls — the same
for every sufficient fuel, so no further predicate invocation ever follows the
failure.  Every wait command the registration flow issues is bounded with
`intervalSecs = 10`, `timeoutSecs = 1800`, while the currency-conversion poll
tick is unbounded: it never fails (its error field is never set) and a
below-baseline balance leaves the state unchanged, so polling continues. -/
theorem C4_bounded_timeout (interval timeout fuel : Nat)
    (hi : 0 < interval) (ht : 0 < timeout)
    (hfuel : timeout / interval + 1 ≤ fuel) :
    SpecPoll.pollLoop (fun _ => false) interval timeout 0 fuel =
      SpecPoll.PollOutcome.timedOut ((timeout / interval + 1) * interval)
        (timeout / interval + 1) ∧
    timeout < (timeout / interval + 1) * interval ∧
    (timeout / interval + 1) * interval ≤ timeout + interval ∧
    (∀ (now : Nat) (isRoot : Bool) (name nsName ref : String)
      (inp : Reg.FlowInputs) (s : Reg.RegState),
      ∀ c ∈ (Reg.startFlow now isRoot name nsName ref inp s).invoked,
        c ∈ s.invoked ∨ Reg.boundedWait c) ∧
    (∀ (s : Conv.ConvState) (b : ℚ),
      (Conv.pollTickResolve b s).conversionError = s.conversionError) ∧
    (∀ (s : Conv.ConvState) (b : ℚ), ¬s.baselineBalance < b →
      Conv.pollTickResolve b s = s) := by
  refine ⟨pollLoop_never_ready interval timeout hi fuel 0 (Nat.succ_pos _) (by simpa using hfuel),
    ?_, ?_, fun now isRoot name nsName ref inp s =>
      startFlow_invoked_bounded now isRoot name nsName ref inp s, ?_, ?_⟩
  · have hdm := Nat.div_add_mod timeout interval
    have hmod : timeout % interval < interval := Nat.mod_lt _ hi
    calc timeout = interval * (timeout / interval) + timeout % interval := hdm.symm
      _ < interval * (timeout / interval) + interval := by omega
      _ = (timeout / interval + 1) * interval := by ring
  · have hq_le : (timeout / interval) * interval ≤ timeout := Nat.div_mul_le_self _ _
    calc (timeout / interval + 1) * interval
        = (timeout / interval) * interval + interval := by ring
      _ ≤ timeout + interval := by omega
  · intro s b
    unfold Conv.pollTickResolve
    by_cases hlt : s.baselineBalance < b
    · rw [if_pos hlt]
      unfold Conv.completeConversion Conv.stopTimer
      cases hp : s.pollingInterval <;> cases ht2 : s.timerInterval <;>
        simp [Conv.clearPolling, Conv.clearTimer, hp, ht2]
    · rw [if_neg hlt]
  · intro s b hlt
    unfold Conv.pollTickResolve
    rw [if_neg hlt]

/-- C4 witness: interval `10`, timeout `25`, fuel `4` — the run times out at
elapsed `30` after exactly `3` predicate calls. -/
theorem C4_bounded_timeout_witness :
    SpecPoll.pollLoop (fun _ => false) 10 25 0 4 =
      SpecPoll.PollOutcome.timedOut 30 3 := by
  have h := (C4_bounded_timeout 10 25 4 (by norm_num) (by norm_num) (by norm_num)).1
  norm_num at h
  exact h
